import Mathlib

/-!
Verification of the N3XUS scraping pipeline (src/main.py) against its
natural-language specification.

The Python source is shallowly embedded: each pure fragment becomes a Lean
function over explicit inputs, and every effectful boundary (the aiohttp
transport, the BeautifulSoup document queries, the JSON file store) is passed
in as data — a transport outcome is an `Except` value (an exception or a
response), a parsed document is the list of elements the site-specific
selector would return, and the JSON files are an explicit application state.
This mirrors the spec's own boundary: transport and HTML parsing are consumed
capabilities, not reimplemented logic.
-/

/- ========================================================================
   String utilities shared by the adapters
   ======================================================================== -/

/-- Whitespace in the sense of Python's `str.split()` with no arguments:
space, tab, newline, carriage return, vertical tab, form feed. -/
def pythonIsSpace (c : Char) : Bool :=
  c == ' ' || c == '\t' || c == '\n' || c == '\r' || c == '\x0b' || c == '\x0c'

/-- Python's `str.lower()`, character-wise. -/
def pyLower (s : String) : String :=
  String.mk (s.toList.map Char.toLower)

/-- Python's `str.strip()` with no arguments: drop Python whitespace from
both ends. -/
def pyStrip (s : String) : String :=
  String.mk (((s.toList.dropWhile pythonIsSpace).reverse.dropWhile
    pythonIsSpace).reverse)

/-- Python's substring test `needle in hay`, on character lists: `needle`
occurs contiguously somewhere in `hay`. -/
def listInfixB (needle : List Char) : List Char → Bool
  | [] => needle.isEmpty
  | c :: rest => needle.isPrefixOf (c :: rest) || listInfixB needle rest

/-- Python's substring test `needle in hay` on strings. -/
def strIn (needle hay : String) : Bool :=
  listInfixB needle.toList hay.toList

/-- Python's `s.startswith(pre)`. -/
def pyStartsWith (s pre : String) : Bool :=
  pre.toList.isPrefixOf s.toList

/-- Embedding of `_normalize` (src/main.py:1074-1075):
`"".join(s.lower().split())`, i.e. lowercase and then delete every Python
whitespace character (split on whitespace runs, join with nothing). -/
def _normalize (s : String) : String :=
  String.mk ((pyLower s).toList.filter (fun c => !pythonIsSpace c))

/-- Modelled from the spec's words (§3, §4.3): "normalize both strings
(lowercase, strip all whitespace)" and nothing else — punctuation is kept.
Stated separately from the source-derived `_normalize` so the two can be
compared. -/
def normalize_spec (s : String) : String :=
  String.mk ((pyLower s).toList.filter (fun c => !pythonIsSpace c))

/-- Embedding of the normalization used by `fetch_fullporner_page`
(src/main.py:253,260): `re.sub(r'[^a-z0-9]', '', s.lower())` — lowercase and
delete every character that is not a lowercase letter or a digit (this also
deletes punctuation such as hyphens, and whitespace). -/
def fullporner_norm (s : String) : String :=
  String.mk ((pyLower s).toList.filter
    (fun c => (decide ('a' ≤ c) && decide (c ≤ 'z')) ||
              (decide ('0' ≤ c) && decide (c ≤ '9'))))

/-- Relevance test of `fetch_gotanynudes` (src/main.py:1081,1099) — also the
one used by `fetch_nsfw247`, `fetch_hornysimp`, `fetch_porntn`,
`fetch_xxbrits`, `fetch_bitchesgirls`: `normalized in _normalize(title)` with
`normalized = _normalize(search_term)`. -/
def gotanynudes_relevant (search_term title : String) : Bool :=
  strIn (_normalize search_term) (_normalize title)

/-- Relevance test of `fetch_fullporner_page` (src/main.py:260-269):
`normalized_term in norm_title` where both sides go through the
alphanumeric-only normalization `fullporner_norm`. -/
def fullporner_relevant (term title : String) : Bool :=
  strIn (fullporner_norm term) (fullporner_norm title)

/-- Modelled from the spec's words (§4.3, §8): `isRelevant(T,S)` holds iff
`normalize(T)` is a substring of `normalize(S)` with the whitespace-only
normalization. -/
def isRelevant_spec (term title : String) : Bool :=
  strIn (normalize_spec term) (normalize_spec title)

/- ========================================================================
   C1 — Fetcher: get_webpage_content (src/main.py:498-504)
   ======================================================================== -/

/-- Outcome of `session.get(url)` as seen by the caller: the HTTP status, the
final URL after redirects, and the result of `await resp.text()` (reading the
body may itself raise a transport exception). -/
structure ClientResponse where
  status : Nat
  url : String
  text : Except String String

/-- Embedding of `get_webpage_content` (src/main.py:498-504). The input is
the transport outcome for the requested URL: either a raised exception from
`session.get` (`Except.error`) or a response. The body has no try/except, so
a transport exception propagates unchanged, while any HTTP status — 2xx or
not — is returned in the `(text, url, status)` triple. -/
def get_webpage_content (resp : Except String ClientResponse) :
    Except String (String × String × Nat) :=
  match resp with
  | Except.error e => Except.error e
  | Except.ok r =>
    match r.text with
    | Except.error e => Except.error e
    | Except.ok t => Except.ok (t, r.url, r.status)

/- ========================================================================
   C2 — Fan-out scheduler: asyncio.gather call sites
   (src/main.py:301-315 fetch_fullporner, 829-841 fetch_fapello_album_media)
   ======================================================================== -/

/-- Model of `asyncio.gather(*tasks)` without `return_exceptions`: each task
is identified with its outcome; if any task raises, the gather raises instead
of producing a result list (the model propagates the first failing index;
real asyncio propagates the earliest-completed failure — either way no result
list is delivered). -/
def asyncio_gather {E A : Type} : List (Except E A) → Except E (List A)
  | [] => Except.ok []
  | t :: ts =>
    match t, asyncio_gather ts with
    | Except.error e, _ => Except.error e
    | Except.ok _, Except.error e => Except.error e
    | Except.ok a, Except.ok rest => Except.ok (a :: rest)

/-- Model of `asyncio.gather(*tasks, return_exceptions=True)`
(src/main.py:831): every task's outcome — value or exception — is delivered
at that task's own index, so the result list trivially matches the task list
in length and order. -/
def asyncio_gather_re {E A : Type} (tasks : List (Except E A)) :
    List (Except E A) :=
  tasks

/-- Result shape of `fetch_fapello_page_media`: the per-page image and video
URL lists. -/
structure FapelloMedia where
  images : List String
  videos : List String
deriving DecidableEq

/-- Embedding of the aggregation loop of `fetch_fapello_album_media`
(src/main.py:831-838): iterate over the gathered outcomes in order; an
outcome that is an exception is skipped (`continue`), an ok outcome has its
images and videos appended. -/
def fetch_fapello_aggregate (results : List (Except String FapelloMedia)) :
    FapelloMedia :=
  results.foldl
    (fun media r =>
      match r with
      | Except.error _ => media
      | Except.ok m => ⟨media.images ++ m.images, media.videos ++ m.videos⟩)
    ⟨[], []⟩

/-- Embedding of the result loop of `fetch_fullporner` (src/main.py:306-311):
walk the gathered per-page video lists in page order, stopping at the first
empty page (`if not vids: break`) and concatenating the rest. -/
def takeUntilEmptyPage {V : Type} : List (List V) → List V
  | [] => []
  | vs :: rest => if vs.isEmpty then [] else vs ++ takeUntilEmptyPage rest

/-- Embedding of the fan-out phase of `fetch_fullporner`
(src/main.py:301-315): pages 2..last are gathered with a plain
`asyncio.gather` (no `return_exceptions`), then the per-page results are
folded with the first page's videos and unzipped into url and title lists.
An exception from any page task propagates out of the gather. -/
def fetch_fullporner_pages (firstVideos : List (String × String))
    (pageResults : List (Except String (List (String × String)))) :
    Except String (List String × List String) :=
  match asyncio_gather pageResults with
  | Except.error e => Except.error e
  | Except.ok pages =>
    let all_videos := firstVideos ++ takeUntilEmptyPage pages
    Except.ok (all_videos.map Prod.fst, all_videos.map Prod.snd)

/- ========================================================================
   C4 — Pagination bounds: scrape_hqporner (src/main.py:333-400),
   fetch_influencers (src/main.py:923-948)
   ======================================================================== -/

/-- Document content of one HQPorner result page, as seen through the
selectors of `scrape_hqporner`: whether the "Sorry, I can't find porn to your
request" banner is present, the `(href, title)` pairs of the
`a.click-trigger` anchors, and the href of the `a.pagi-btn[href*="p="]`
next-page button when present. -/
structure HqPage where
  banner : Bool
  anchors : List (String × String)
  nextHref : Option String

/-- Base URL constant of `scrape_hqporner` (src/main.py:335). -/
def hqporner_base : String := "https://hqporner.com"

/-- Inner anchor loop of `scrape_hqporner` (src/main.py:364-380): skip
anchors whose href does not start with "/hdporn/"; for the rest, keep the
anchor when the normalized name occurs in the normalized title and the
absolute URL is unseen; stop scanning the page once `max_results` URLs are
collected. Returns the updated `(seen, urls, titles, found)`. -/
def hq_scan (normalized : String) (max_results : Nat) :
    List (String × String) → List String → List String → List String → Nat →
    List String × List String × List String × Nat
  | [], seen, urls, titles, found => (seen, urls, titles, found)
  | (href, title) :: rest, seen, urls, titles, found =>
    if !pyStartsWith href "/hdporn/" then
      hq_scan normalized max_results rest seen urls titles found
    else
      let full_url := hqporner_base ++ href
      let norm_title := _normalize title
      if strIn normalized norm_title && !seen.contains full_url then
        let seen' := seen ++ [full_url]
        let urls' := urls ++ [full_url]
        let titles' := titles ++ [title]
        if max_results ≤ urls'.length then (seen', urls', titles', found + 1)
        else hq_scan normalized max_results rest seen' urls' titles' (found + 1)
      else
        hq_scan normalized max_results rest seen urls titles found

/-- Outer page loop of `scrape_hqporner` (src/main.py:344-398), recursing on
the remaining iterations of `for page_idx in range(max_pages)`. The document
for a URL is supplied by `site`; `first` records whether this is page index
0 (the first-page-only abort checks). The second component of the result
counts how many pages were actually fetched. -/
def hq_loop (site : String → HqPage) (normalized : String) (max_results : Nat) :
    Nat → Bool → List String → List String → List String → List String → Nat →
    (List String × List String) × Nat
  | 0, _, _, _, urls, titles, fetches => ((urls, titles), fetches)
  | remaining + 1, first, queue, seen, urls, titles, fetches =>
    match queue with
    | [] => ((urls, titles), fetches)
    | url :: queueRest =>
      if max_results ≤ urls.length then ((urls, titles), fetches)
      else
        let page := site url
        if first && page.banner then (([], []), fetches + 1)
        else
          match hq_scan normalized max_results page.anchors seen urls titles 0 with
          | (seen', urls', titles', found) =>
            if first && found == 0 then (([], []), fetches + 1)
            else if found == 0 then ((urls', titles'), fetches + 1)
            else
              let queue' :=
                match page.nextHref with
                | some h =>
                  let full_next := if pyStartsWith h "/" then hqporner_base ++ h else h
                  if queueRest.contains full_next then queueRest
                  else queueRest ++ [full_next]
                | none => queueRest
              hq_loop site normalized max_results remaining false queue' seen'
                urls' titles' (fetches + 1)

/-- Search URL that seeds the queue of `scrape_hqporner` (src/main.py:336-337);
the exact percent-escaping of `urlencode({'q': name})` is a transport-side
detail immaterial to the claims. -/
def hqporner_search_url (name : String) : String :=
  hqporner_base ++ "/?q=" ++ name

/-- Embedding of `scrape_hqporner` (src/main.py:333-400) over an abstract
site, returning the `(urls, titles)` result and the number of pages fetched.
Defaults `max_pages = 5`, `max_results = 100` as in the source. -/
def scrape_hqporner (site : String → HqPage) (name : String)
    (max_pages : Nat := 5) (max_results : Nat := 100) :
    (List String × List String) × Nat :=
  hq_loop site (_normalize name) max_results max_pages true
    [hqporner_search_url name] [] [] [] 0

/-- One `a.g1-frame` anchor of an influencersgonewild result page: its
optional href and title attributes and its text content. -/
structure InfAnchor where
  href : Option String
  title : Option String
  text : String

/-- Display title of an anchor in `fetch_influencers` (src/main.py:944):
`a.get("title") or a.text.strip()` — Python `or` falls through both on a
missing title attribute and on an empty one. -/
def infTitle (a : InfAnchor) : String :=
  match a.title with
  | some t => if t = "" then pyStrip a.text else t
  | none => pyStrip a.text

/-- Page loop of `fetch_influencers` (src/main.py:926-947), embedded with
explicit fuel since the source loop is `while True` with no page cap: `none`
means the fuel ran out with the loop still running. Each iteration fetches
`?s=term&paged=page`; if the page has no `a.g1-frame` items the loop breaks,
otherwise every item's href and title are appended and the page number is
incremented. -/
def influencers_loop (site : Nat → List InfAnchor) :
    Nat → Nat → List (Option String) → List String →
    Option (List (Option String) × List String)
  | 0, _, _, _ => none
  | fuel + 1, page, urls, titles =>
    let items := site page
    if items.isEmpty then some (urls, titles)
    else
      influencers_loop site fuel (page + 1)
        (urls ++ items.map InfAnchor.href) (titles ++ items.map infTitle)

/-- Embedding of `fetch_influencers` (src/main.py:923-948) over an abstract
site mapping page numbers to their anchor lists, with explicit fuel. -/
def fetch_influencers (site : Nat → List InfAnchor) (fuel : Nat) :
    Option (List (Option String) × List String) :=
  influencers_loop site fuel 1 [] []

/- ========================================================================
   C5 — Validator: validate_url (src/main.py:747-756) and its use in
   fetch_bunkr_gallery_images (src/main.py:741-742)
   ======================================================================== -/

/-- Embedding of `validate_url` (src/main.py:747-756). The input is the
outcome of the single ranged GET (`Range: bytes=0-0`, redirects followed)
for `url`: on status 206 the URL is returned, on any other status the
function falls through to `return None`, and a raised exception is caught
and also yields `None`. Exactly one request is issued per call. -/
def validate_url (resp : Except String Nat) (url : String) : Option String :=
  match resp with
  | Except.ok r_status => if r_status == 206 then some url else none
  | Except.error _ => none

/-- First-occurrence deduplication of a string list; models materializing the
Python set comprehension `{u for u in validated if u}` as a list. CPython set
iteration order is unspecified, so this model is only used where the set has
at most one element and the order is immaterial. -/
def pySetToList : List String → List String
  | [] => []
  | u :: rest => if rest.contains u then pySetToList rest else u :: pySetToList rest

/-- Embedding of the validation step of `fetch_bunkr_gallery_images`
(src/main.py:741-742): validate every candidate URL against its own ranged
GET outcome, keep the non-`None` results
(`list({u for u in validated if u})`), with no second attempt for dropped
URLs. -/
def validate_pipeline (respOf : String → Except String Nat)
    (urls : List String) : List String :=
  pySetToList ((urls.map (fun u => validate_url (respOf u) u)).filterMap id)

/- ========================================================================
   C6 — Probe-until-empty stops on zero *relevant* candidates:
   fetch_nsfw247 (src/main.py:1109-1135),
   fetch_gotanynudes (src/main.py:1077-1107)
   ======================================================================== -/

/-- Per-page candidate filter of `fetch_nsfw247` (src/main.py:1125-1131):
from the `(href, text)` anchors of the page keep those whose href starts
with "https://nsfw247.to/" and whose text passes the normalized containment
test; `found` in the source is the length of this list. -/
def nsfw247_page_items (normalized : String)
    (anchors : List (String × String)) : List (String × String) :=
  anchors.filterMap (fun a =>
    if !pyStartsWith a.fst "https://nsfw247.to/" then none
    else
      let title := pyStrip a.snd
      if strIn normalized (_normalize title) then some (a.fst, title) else none)

/-- Page loop of `fetch_nsfw247` (src/main.py:1114-1134) with explicit fuel
(`none` = fuel exhausted with the loop still running): each iteration
appends the relevant items of the current page and breaks as soon as
`found == 0`, i.e. as soon as the page yields zero relevant candidates —
raw candidates that fail the filter do not keep the loop alive. -/
def fetch_nsfw247_loop (site : Nat → List (String × String))
    (normalized : String) :
    Nat → Nat → List String → List String →
    Option (List String × List String)
  | 0, _, _, _ => none
  | fuel + 1, page, urls, titles =>
    let rel := nsfw247_page_items normalized (site page)
    let urls' := urls ++ rel.map Prod.fst
    let titles' := titles ++ rel.map Prod.snd
    if rel.length == 0 then some (urls', titles')
    else fetch_nsfw247_loop site normalized fuel (page + 1) urls' titles'

/-- Embedding of `fetch_nsfw247` (src/main.py:1109-1135) over an abstract
site mapping page numbers to anchor `(href, text)` lists. -/
def fetch_nsfw247 (site : Nat → List (String × String)) (search_term : String)
    (fuel : Nat) : Option (List String × List String) :=
  fetch_nsfw247_loop site (_normalize search_term) fuel 1 [] []

/-- One gotanynudes result page through the selectors of `fetch_gotanynudes`:
the `(title, href)` pairs of the `a.g1-frame[title][href]` anchors, and
whether the `a.g1-load-more[data-g1-next-page-url]` button is present. -/
structure GotanyPage where
  anchors : List (String × String)
  hasNext : Bool

/-- Per-page candidate filter of `fetch_gotanynudes` (src/main.py:1097-1102):
keep the anchors whose stripped title passes the normalized containment test;
`found` in the source is the length of this list. -/
def gotanynudes_page_items (normalized : String)
    (anchors : List (String × String)) : List (String × String) :=
  anchors.filterMap (fun a =>
    let title := pyStrip a.fst
    if strIn normalized (_normalize title) then some (a.snd, title) else none)

/-- Page loop of `fetch_gotanynudes` (src/main.py:1083-1106) with explicit
fuel: each iteration appends the relevant items of the current page and
breaks when the load-more button is absent or when `found == 0`. -/
def fetch_gotanynudes_loop (site : Nat → GotanyPage) (normalized : String) :
    Nat → Nat → List String → List String →
    Option (List String × List String)
  | 0, _, _, _ => none
  | fuel + 1, page, urls, titles =>
    let rel := gotanynudes_page_items normalized (site page).anchors
    let urls' := urls ++ rel.map Prod.fst
    let titles' := titles ++ rel.map Prod.snd
    if !(site page).hasNext || rel.length == 0 then some (urls', titles')
    else fetch_gotanynudes_loop site normalized fuel (page + 1) urls' titles'

/- ========================================================================
   C7 — Deduplicator: fetch_all_erome_media (src/main.py:598-607)
   ======================================================================== -/

/-- One aggregated Erome media item: images are plain URL strings, videos are
`{"url": ..., "thumbnail": ...}` dictionaries. -/
inductive EromeItem where
  | img (url : String)
  | vid (url thumbnail : String)
deriving DecidableEq

/-- Deduplication key of `fetch_all_erome_media` (src/main.py:602):
`item["url"] if isinstance(item, dict) else item`. -/
def eromeKey : EromeItem → String
  | EromeItem.img url => url
  | EromeItem.vid url _ => url

/-- Deduplication loop of `fetch_all_erome_media` (src/main.py:599-606) with
the `seen_urls` set made explicit: append an item on the first occurrence of
its URL key, drop later repeats. -/
def dedupeAux (seen : List String) : List EromeItem → List EromeItem
  | [] => []
  | item :: rest =>
    if seen.contains (eromeKey item) then dedupeAux seen rest
    else item :: dedupeAux (eromeKey item :: seen) rest

/-- Embedding of the dedupe-by-URL step of `fetch_all_erome_media`
(src/main.py:598-607), starting from an empty seen set. -/
def dedupe_by_url (items : List EromeItem) : List EromeItem :=
  dedupeAux [] items

/- ========================================================================
   C8 — Resolver chain: fetch_video_urls (src/main.py:539-571),
   VIDEO_THUMB (src/main.py:491-496)
   ======================================================================== -/

/-- Fallback placeholder thumbnail `VIDEO_THUMB` (src/main.py:491-496). -/
def VIDEO_THUMB : String :=
  "https://media.discordapp.net/attachments/" ++
  "1343576085098664020/1364464992593772644/raw.png" ++
  "?ex=680bbecc&is=680a6d4c&hm=f5b308c94c60411147c99b5672fb4230791da9c202cce9a2cd5285ebbaa95a02" ++
  "&=&format=webp&quality=lossless&width=882&height=882"

/-- One `<source>` child of a `<video>` element: its `type` attribute and its
optional `src` attribute. -/
structure SourceTag where
  type : String
  src : Option String
deriving DecidableEq

/-- One `<video>` element of a detail page: its optional `poster` attribute
and its `<source>` children in document order. -/
structure VideoTag where
  poster : Option String
  sources : List SourceTag
deriving DecidableEq

/-- One resolved video asset `{"url": ..., "thumbnail": ...}` as produced by
`fetch_video_urls`. -/
structure VideoAsset where
  url : String
  thumbnail : String
deriving DecidableEq

/-- Embedding of `src.split("?", 1)[0]` (src/main.py:563): everything before
the first question mark. -/
def strip_query (s : String) : String :=
  String.mk (s.toList.takeWhile (fun c => c ≠ '?'))

/-- Embedding of `fetch_video_urls` (src/main.py:539-571) over the parsed
`<video>` elements of a detail page. The URL-join capability
(`urllib.parse.urljoin`) is passed in as `join`, applied against the page's
final base URL. Per video: thumbnail is the poster attribute made absolute
when present and the fixed `VIDEO_THUMB` fallback otherwise; the first
`<source type="video/mp4">` with a src attribute supplies the asset URL,
query string stripped before joining; a video with no such source is
skipped. -/
def fetch_video_urls (join : String → String → String) (base_url : String)
    (videoTags : List VideoTag) : List VideoAsset :=
  videoTags.filterMap (fun v =>
    let thumbnail_url :=
      match v.poster with
      | some poster_attr => join base_url poster_attr
      | none => VIDEO_THUMB
    match v.sources.find? (fun s => s.type == "video/mp4" && s.src.isSome) with
    | none => none
    | some source =>
      match source.src with
      | none => none
      | some src =>
        let raw_src := strip_query src
        let full_url := join base_url raw_src
        some ⟨full_url, thumbnail_url⟩)

/- ========================================================================
   C9 — urls/titles pairing: get_all_album_links_from_search
   (src/main.py:693-715), fetch_fullporner (src/main.py:313-315),
   fetch_notfans (src/main.py:867-921)
   ======================================================================== -/

/-- Title padding of `get_all_album_links_from_search` (src/main.py:710-712):
when fewer titles than links were extracted, extend the titles with empty
strings up to the number of links. -/
def bunkr_pad_titles (links titles : List String) : List String :=
  if titles.length < links.length then
    titles ++ List.replicate (links.length - titles.length) ""
  else titles

/-- Embedding of the pairing step of `get_all_album_links_from_search`
(src/main.py:703-715): given the links and titles extracted by
`parse_links_and_titles`, pad the titles and zip, so every link is returned
as a `{"url": u, "title": t}` pair. -/
def get_all_album_links_from_search (links titles : List String) :
    List (String × String) :=
  links.zip (bunkr_pad_titles links titles)

/-- Embedding of the final unzip of `fetch_fullporner` (src/main.py:314):
`urls, titles = zip(*all_videos)`. -/
def fullporner_unzip (all_videos : List (String × String)) :
    List String × List String :=
  (all_videos.map Prod.fst, all_videos.map Prod.snd)

/-- One candidate anchor of a notfans result page: its href and the text of
its `strong.title` child when present. -/
structure NotfansAnchor where
  href : String
  titleChild : Option String

/-- Per-page extraction loop of `fetch_notfans` (src/main.py:882-889 and
908-915): skip anchors without a `strong.title` child, skip titles that do
not contain the lowercased term, and append the absolutized href and the
title in lock-step. -/
def notfans_extract (search_term : String) (anchors : List NotfansAnchor) :
    List String × List String :=
  let term := pyLower search_term
  let items := anchors.filterMap (fun a =>
    match a.titleChild with
    | none => none
    | some t =>
      let title := pyStrip t
      if !strIn term (pyLower title) then none
      else
        let href := pyStrip a.href
        some ((if pyStartsWith href "http" then href
               else "https://notfans.com" ++ href), title))
  (items.map Prod.fst, items.map Prod.snd)

/- ========================================================================
   C10 — register (src/main.py:161-184)
   ======================================================================== -/

/-- Persisted JSON state touched by `register`: `invites.json` as a map from
code to used-flag, `users.json` as a map from username to password hash. An
update to a field of this state is a `save_json` write of that file. -/
structure AppState where
  invites : List (String × Bool)
  users : List (String × String)
deriving DecidableEq

/-- Embedding of `invites[data.invite_code] = True` (src/main.py:174): the
dict entry for the code is overwritten with `True`. -/
def markUsed (invites : List (String × Bool)) (code : String) :
    List (String × Bool) :=
  invites.map (fun kv => if kv.fst == code then (kv.fst, true) else kv)

/-- Responses of the `/api/register` handler: HTTP 201 with a message, or an
`HTTPException` carrying a status code and detail string. -/
def RegisterResult : Type := Except (Nat × String) String

/-- Embedding of `register` (src/main.py:161-184). The password hasher
(passlib, a consumed capability) is passed in as `hash`. Order of effects as
in the source: validate the invite code, mark it used and persist
(`save_json`), only then check the username; the username-taken error is
raised after the invite state was already saved, with no rollback. -/
def register (hash : String → String) (st : AppState)
    (username password invite_code : String) : AppState × RegisterResult :=
  match st.invites.lookup invite_code with
  | none => (st, Except.error (400, "Invalid invite code"))
  | some used =>
    if used then (st, Except.error (400, "Invite code already used"))
    else
      let st1 : AppState := ⟨markUsed st.invites invite_code, st.users⟩
      if st1.users.any (fun kv => kv.fst == username) then
        (st1, Except.error (400, "Username already registered"))
      else
        (⟨st1.invites, st1.users ++ [(username, hash password)]⟩,
         Except.ok "Registered")

/- ========================================================================
   Helper lemmas
   ======================================================================== -/

/-- Boolean substring matcher agrees with the contiguous-sublist relation. -/
theorem listInfixB_iff (n : List Char) : ∀ h : List Char,
    listInfixB n h = true ↔ n <:+: h
  | [] => by
    simp [listInfixB, List.isEmpty_iff]
  | c :: rest => by
    rw [listInfixB, Bool.or_eq_true, List.isPrefixOf_iff_prefix,
      listInfixB_iff n rest, List.infix_cons_iff]

/-- Normalization of the source and the normalization the spec describes are
the same function. -/
theorem _normalize_eq_spec (s : String) : _normalize s = normalize_spec s := rfl

/- ========================================================================
   C1 — Fetcher error propagation
   ======================================================================== -/

/-- C1 (counterexample): the claim says `get_webpage_content` never raises to
its caller. At a transport failure (a connection error raised by
`session.get`) the function, which has no try/except, re-raises the
exception instead of returning a FetchResult. -/
theorem get_webpage_content_raises_on_transport_error :
    get_webpage_content (Except.error "aiohttp.ClientConnectionError") =
      Except.error "aiohttp.ClientConnectionError" := rfl

/-- C1 (amended): `get_webpage_content` never raises on an HTTP status — any
status, 2xx or not, is captured in the returned `(text, url, status)` triple
— but a transport exception (network error, timeout) propagates unchanged to
the caller. -/
theorem get_webpage_content_amended :
    (∀ (statusCode : Nat) (url body : String),
      get_webpage_content (Except.ok ⟨statusCode, url, Except.ok body⟩) =
        Except.ok (body, url, statusCode)) ∧
    (∀ e : String, get_webpage_content (Except.error e) = Except.error e) :=
  ⟨fun _ _ _ => rfl, fun _ => rfl⟩

/- ========================================================================
   C2 — Fan-out failure isolation
   ======================================================================== -/

/-- C2 (counterexample): the claim says one page request's failure never
aborts its siblings. In `fetch_fullporner` the page tasks are gathered with a
plain `asyncio.gather` (no `return_exceptions`), so with page results
ok / exception / ok the whole fan-out raises and both siblings' video lists
are lost — the output is not a 3-entry array with a marker at index 1. -/
theorem fullporner_gather_aborts_on_single_failure :
    fetch_fullporner_pages [("https://fullporner.com/video/1", "t1")]
      [Except.ok [("https://fullporner.com/video/2", "t2")],
       Except.error "TimeoutError",
       Except.ok [("https://fullporner.com/video/4", "t4")]] =
      Except.error "TimeoutError" := rfl

/-- C2 (amended): the gather of `fetch_fapello_album_media` (which passes
`return_exceptions=True`) keeps the result array in input length and order
with the failure's marker at its own index, and the aggregation loop skips
the failed entry while keeping every sibling's media. `fetch_fullporner`'s
plain gather does not enjoy this: a failing page task aborts the siblings
(see the counterexample). -/
theorem fapello_gather_isolates_failures
    (pre post : List (Except String FapelloMedia)) (e : String) :
    (asyncio_gather_re (pre ++ Except.error e :: post)).length =
      pre.length + 1 + post.length ∧
    (asyncio_gather_re (pre ++ Except.error e :: post))[pre.length]? =
      some (Except.error e) ∧
    fetch_fapello_aggregate (pre ++ Except.error e :: post) =
      fetch_fapello_aggregate (pre ++ post) := by
  refine ⟨?_, ?_, ?_⟩
  · simp [asyncio_gather_re]
    omega
  · show (pre ++ Except.error e :: post)[pre.length]? = some (Except.error e)
    rw [List.getElem?_append_right (le_refl _)]
    simp
  · simp [fetch_fapello_aggregate, List.foldl_append]

/- ========================================================================
   C3 — Relevance predicate
   ======================================================================== -/

/-- C3 (counterexample): the claim says every relevance test normalizes by
lowercasing and removing whitespace only, preserving punctuation such as
hyphens. The fullporner adapter's test strips punctuation too: it accepts
term "a-b" against title "ab", which the whitespace-only normalized
containment rejects. -/
theorem fullporner_relevance_strips_punctuation :
    fullporner_relevant "a-b" "ab" = true ∧
    isRelevant_spec "a-b" "ab" = false := by
  exact ⟨by decide, by decide⟩

/-- C3 (amended): for the adapters built on `_normalize` (gotanynudes,
nsfw247, hornysimp, porntn, xxbrits, bitchesgirls), relevance holds exactly
when the spec-normalized term (lowercase, whitespace removed, punctuation
preserved) occurs contiguously in the spec-normalized title; the fullporner
adapter instead applies containment after deleting every non-alphanumeric
character (see the counterexample). -/
theorem relevance_is_normalized_substring (T S : String) :
    gotanynudes_relevant T S = true ↔
      (normalize_spec T).toList <:+: (normalize_spec S).toList :=
  listInfixB_iff (normalize_spec T).toList (normalize_spec S).toList

/- ========================================================================
   C4 — Pagination bounds
   ======================================================================== -/

/-- Fetch count of the hqporner page loop grows by at most one per remaining
iteration. -/
theorem hq_loop_fetches_le (site : String → HqPage) (normalized : String)
    (max_results : Nat) :
    ∀ (remaining : Nat) (first : Bool) (queue seen urls titles : List String)
      (fetches : Nat),
      (hq_loop site normalized max_results remaining first queue seen urls
        titles fetches).2 ≤ fetches + remaining := by
  intro remaining
  induction remaining with
  | zero =>
    intro first queue seen urls titles fetches
    simp [hq_loop]
  | succ r ih =>
    intro first queue seen urls titles fetches
    cases queue with
    | nil =>
      simp [hq_loop]
    | cons url queueRest =>
      rcases hscan : hq_scan normalized max_results (site url).anchors seen
        urls titles 0 with ⟨seen', urls', titles', found⟩
      simp only [hq_loop, hscan]
      split_ifs with h1 h2 h3 h4
      · show fetches ≤ fetches + (r + 1)
        omega
      · show fetches + 1 ≤ fetches + (r + 1)
        omega
      · show fetches + 1 ≤ fetches + (r + 1)
        omega
      · show fetches + 1 ≤ fetches + (r + 1)
        omega
      · exact le_trans (ih false _ _ _ _ (fetches + 1)) (by omega)

/-- C4 (amended): `scrape_hqporner` bounds pagination by its `max_pages`
parameter (default 5): against every site behavior it fetches at most
`max_pages` pages, so it terminates even on infinite or cyclic pagination.
The probe loops of `fetch_influencers` and `fetch_pornxp`, in contrast, have
no hard cap (see the counterexample). -/
theorem scrape_hqporner_page_cap (site : String → HqPage) (name : String)
    (max_pages max_results : Nat) :
    (scrape_hqporner site name max_pages max_results).2 ≤ max_pages := by
  have h := hq_loop_fetches_le site (_normalize name) max_results max_pages
    true [hqporner_search_url name] [] [] [] 0
  simpa [scrape_hqporner] using h

/-- Against a site whose every page lists at least one item, the
`fetch_influencers` loop never reaches its break. -/
theorem influencers_loop_none_of_nonempty (site : Nat → List InfAnchor)
    (h : ∀ p, (site p).isEmpty = false) :
    ∀ (fuel page : Nat) (urls : List (Option String)) (titles : List String),
      influencers_loop site fuel page urls titles = none := by
  intro fuel
  induction fuel with
  | zero => intro page urls titles; rfl
  | succ f ih =>
    intro page urls titles
    rw [influencers_loop, h page]
    exact ih (page + 1) _ _

/-- C4 (counterexample): the claim says every adapter's pagination performs
at most a fixed hard cap of page iterations (the spec recommends a cap of
10–50). `fetch_influencers` has no cap: against a site serving one item on
every page, the `while True` loop is still running after 1000 page
iterations. -/
theorem fetch_influencers_unbounded_pagination :
    fetch_influencers
      (fun _ => [⟨some "https://influencersgonewild.com/v/", some "t", "t"⟩])
      1000 = none :=
  influencers_loop_none_of_nonempty
    (fun _ => [⟨some "https://influencersgonewild.com/v/", some "t", "t"⟩])
    (fun _ => rfl) 1000 1 [] []

/- ========================================================================
   C5 — Validator
   ======================================================================== -/

/-- C5: `validate_url` returns the URL exactly on a 206 ranged-GET outcome —
any other status and any raised exception yield None — and the validation
step of `fetch_bunkr_gallery_images`, given candidates answering 206, 404,
and a connection error, returns exactly the 206 one, each URL probed once. -/
theorem validate_url_spec (u1 u2 u3 e : String) (s : Nat) (hs : s ≠ 206) :
    validate_url (Except.ok 206) u1 = some u1 ∧
    validate_url (Except.ok s) u2 = none ∧
    validate_url (Except.error e) u3 = none ∧
    validate_pipeline
      (fun u => if u == "u1" then Except.ok 206
                else if u == "u2" then Except.ok 404
                else Except.error "ClientConnectionError")
      ["u1", "u2", "u3"] = ["u1"] := by
  refine ⟨rfl, ?_, rfl, rfl⟩
  simp [validate_url, hs]

/-- C5 (witness): the validator theorem at status 404 and concrete URLs. -/
theorem validate_url_spec_witness :
    validate_url (Except.ok 206) "a" = some "a" ∧
    validate_url (Except.ok 404) "b" = none ∧
    validate_url (Except.error "err") "c" = none ∧
    validate_pipeline
      (fun u => if u == "u1" then Except.ok 206
                else if u == "u2" then Except.ok 404
                else Except.error "ClientConnectionError")
      ["u1", "u2", "u3"] = ["u1"] :=
  validate_url_spec "a" "b" "c" "err" 404 (by decide)

/- ========================================================================
   C6 — Probe-until-empty stops on zero relevant candidates
   ======================================================================== -/

/-- C6: in the probe-until-empty pagers of `fetch_nsfw247` and
`fetch_gotanynudes`, as soon as the fetched page yields zero candidates
passing the relevance filter the loop returns immediately with what was
accumulated — the page's raw (irrelevant) candidates do not keep the loop
alive, since the stopping condition counts `found`, the relevant ones. -/
theorem probe_pagers_stop_on_zero_relevant
    (nsite : Nat → List (String × String)) (gsite : Nat → GotanyPage)
    (term : String) (page fuel : Nat) (urls titles : List String)
    (hn : nsfw247_page_items (_normalize term) (nsite page) = [])
    (hg : gotanynudes_page_items (_normalize term) (gsite page).anchors = []) :
    fetch_nsfw247_loop nsite (_normalize term) (fuel + 1) page urls titles =
      some (urls, titles) ∧
    fetch_gotanynudes_loop gsite (_normalize term) (fuel + 1) page urls
      titles = some (urls, titles) := by
  constructor
  · rw [fetch_nsfw247_loop]
    simp [hn]
  · rw [fetch_gotanynudes_loop]
    simp [hg]

set_option maxRecDepth 4000 in
/-- C6 (witness): both pagers applied to sites whose every page carries one
extracted-but-irrelevant candidate: each stops after its first page with
empty results. -/
theorem probe_pagers_stop_on_zero_relevant_witness :
    fetch_nsfw247_loop (fun _ => [("https://nsfw247.to/v/1", "unrelated clip")])
      (_normalize "zzqx") 4 1 [] [] = some ([], []) ∧
    fetch_gotanynudes_loop
      (fun _ => ⟨[("unrelated clip", "https://gotanynudes.com/v/1")], true⟩)
      (_normalize "zzqx") 4 1 [] [] = some ([], []) :=
  probe_pagers_stop_on_zero_relevant
    (fun _ => [("https://nsfw247.to/v/1", "unrelated clip")])
    (fun _ => ⟨[("unrelated clip", "https://gotanynudes.com/v/1")], true⟩)
    "zzqx" 1 3 [] [] (by decide) (by decide)

/- ========================================================================
   C7 — Deduplication by URL key
   ======================================================================== -/

/-- Every item emitted by the dedupe loop has a key outside the seen set. -/
theorem mem_dedupeAux_key (item : EromeItem) :
    ∀ (seen : List String) (l : List EromeItem), item ∈ dedupeAux seen l →
      seen.contains (eromeKey item) = false := by
  intro seen l
  induction l generalizing seen with
  | nil =>
    intro h
    simp [dedupeAux] at h
  | cons hd tl ih =>
    intro h
    rw [dedupeAux] at h
    by_cases hc : seen.contains (eromeKey hd) = true
    · rw [if_pos hc] at h
      exact ih seen h
    · rw [if_neg hc] at h
      rcases List.mem_cons.mp h with heq | hmem
      · subst heq
        exact Bool.eq_false_iff.mpr hc
      · have h2 := ih (eromeKey hd :: seen) hmem
        rw [List.contains_cons] at h2
        exact (Bool.or_eq_false_iff.mp h2).2

/-- Keys of the dedupe loop's output are pairwise distinct. -/
theorem dedupeAux_keys_nodup :
    ∀ (seen : List String) (l : List EromeItem),
      ((dedupeAux seen l).map eromeKey).Nodup := by
  intro seen l
  induction l generalizing seen with
  | nil => simp [dedupeAux]
  | cons hd tl ih =>
    rw [dedupeAux]
    by_cases hc : seen.contains (eromeKey hd) = true
    · rw [if_pos hc]
      exact ih seen
    · rw [if_neg hc]
      simp only [List.map_cons, List.nodup_cons]
      refine ⟨?_, ih _⟩
      intro hmem
      obtain ⟨item, hitem, hkey⟩ := List.mem_map.mp hmem
      have h2 := mem_dedupeAux_key item (eromeKey hd :: seen) tl hitem
      rw [List.contains_cons, hkey] at h2
      simp at h2

/-- On a list whose keys are pairwise distinct and disjoint from the seen
set, the dedupe loop is the identity. -/
theorem dedupeAux_eq_self :
    ∀ (seen : List String) (l : List EromeItem),
      (∀ item ∈ l, seen.contains (eromeKey item) = false) →
      (l.map eromeKey).Nodup → dedupeAux seen l = l := by
  intro seen l
  induction l generalizing seen with
  | nil => intro _ _; rfl
  | cons hd tl ih =>
    intro hseen hnodup
    rw [dedupeAux, if_neg (by simpa using hseen hd (List.mem_cons_self hd tl))]
    congr 1
    apply ih
    · intro item hitem
      rw [List.contains_cons]
      have h1 : seen.contains (eromeKey item) = false :=
        hseen item (List.mem_cons_of_mem hd hitem)
      have h2 : eromeKey hd ∉ (tl.map eromeKey) :=
        (List.nodup_cons.mp (by simpa using hnodup)).1
      have h3 : eromeKey item ≠ eromeKey hd := by
        intro he
        exact h2 (he ▸ List.mem_map_of_mem eromeKey hitem)
      simp only [Bool.or_eq_false_iff]
      refine ⟨by simp [h3], h1⟩
    · exact (List.nodup_cons.mp (by simpa using hnodup)).2

/-- The dedupe loop's output is a sublist (order-preserving selection) of the
input. -/
theorem dedupeAux_sublist :
    ∀ (seen : List String) (l : List EromeItem), List.Sublist (dedupeAux seen l) l := by
  intro seen l
  induction l generalizing seen with
  | nil => simp [dedupeAux]
  | cons hd tl ih =>
    rw [dedupeAux]
    by_cases hc : seen.contains (eromeKey hd) = true
    · rw [if_pos hc]
      exact (ih seen).trans (List.sublist_cons_self hd tl)
    · rw [if_neg hc]
      exact List.Sublist.cons₂ hd (ih (eromeKey hd :: seen))

/-- The first item with a given key is unchanged by the dedupe loop. -/
theorem dedupeAux_find (k : String) :
    ∀ (seen : List String) (l : List EromeItem), seen.contains k = false →
      (dedupeAux seen l).find? (fun i => eromeKey i == k) =
        l.find? (fun i => eromeKey i == k) := by
  intro seen l
  induction l generalizing seen with
  | nil => intro _; rfl
  | cons hd tl ih =>
    intro hk
    rw [dedupeAux]
    by_cases hc : seen.contains (eromeKey hd) = true
    · rw [if_pos hc]
      have hne : (eromeKey hd == k) = false := by
        apply Bool.eq_false_iff.mpr
        intro hb
        have heq : eromeKey hd = k := eq_of_beq hb
        rw [heq, hk] at hc
        exact Bool.false_ne_true hc
      rw [List.find?_cons, hne]
      simp only [cond_false]
      exact ih seen hk
    · rw [if_neg hc]
      cases hb : (eromeKey hd == k) with
      | true =>
        rw [List.find?_cons, List.find?_cons, hb]
      | false =>
        rw [List.find?_cons, List.find?_cons, hb]
        simp only [cond_false]
        apply ih
        have h1 : eromeKey hd ≠ k := by simpa using hb
        have h2 : (k == eromeKey hd) = false := by simpa using Ne.symm h1
        rw [List.contains_cons]
        simp only [Bool.or_eq_false_iff]
        exact ⟨h2, hk⟩

/-- C7: the URL-keyed dedupe of `fetch_all_erome_media` is idempotent, its
output has pairwise-distinct URL keys, it keeps each URL's first-seen item
(so its first-seen title/thumbnail — the first match for any key is the same
before and after), and the output preserves first-occurrence order (it is an
order-preserving selection of the input). -/
theorem erome_dedupe_properties (x : List EromeItem) :
    dedupe_by_url (dedupe_by_url x) = dedupe_by_url x ∧
    ((dedupe_by_url x).map eromeKey).Nodup ∧
    (∀ k : String, (dedupe_by_url x).find? (fun i => eromeKey i == k) =
      x.find? (fun i => eromeKey i == k)) ∧
    List.Sublist (dedupe_by_url x) x := by
  refine ⟨?_, dedupeAux_keys_nodup [] x, fun k => dedupeAux_find k [] x rfl,
    dedupeAux_sublist [] x⟩
  exact dedupeAux_eq_self [] (dedupe_by_url x) (fun item _ => rfl)
    (dedupeAux_keys_nodup [] x)

/- ========================================================================
   C8 — Resolver: query stripping and poster fallback
   ======================================================================== -/

/-- takeWhile runs through a block that wholly satisfies the predicate. -/
theorem takeWhile_all_append (p : Char → Bool) :
    ∀ (l₁ l₂ : List Char), (∀ c ∈ l₁, p c = true) →
      (l₁ ++ l₂).takeWhile p = l₁ ++ l₂.takeWhile p := by
  intro l₁
  induction l₁ with
  | nil => intro l₂ _; rfl
  | cons c cs ih =>
    intro l₂ h
    rw [List.cons_append, List.takeWhile_cons, h c (List.mem_cons_self c cs)]
    rw [ih l₂ (fun a ha => h a (List.mem_cons_of_mem c ha))]
    rfl

/-- Splitting at the first question mark recovers a query-free stem. -/
theorem strip_query_append (src qs : String)
    (h : ∀ c ∈ src.toList, c ≠ '?') :
    strip_query (src ++ "?" ++ qs) = src := by
  unfold strip_query
  have hl : (src ++ "?" ++ qs).toList = src.toList ++ '?' :: qs.toList := by
    simp [String.toList]
  rw [hl, takeWhile_all_append _ _ _ (fun c hc => by simp [h c hc])]
  simp [List.takeWhile_cons]

/-- C8: for a detail page whose video carries a first MP4 source with a query
string on its src, `fetch_video_urls` emits the asset whose url is the src
made absolute with the query string stripped; the thumbnail is the poster
attribute made absolute when present and the fixed `VIDEO_THUMB` placeholder
when the poster is absent. -/
theorem fetch_video_urls_resolution (join : String → String → String)
    (base p src qs : String) (rest : List SourceTag)
    (h : ∀ c ∈ src.toList, c ≠ '?') :
    fetch_video_urls join base
        [⟨some p, ⟨"video/mp4", some (src ++ "?" ++ qs)⟩ :: rest⟩] =
      [⟨join base src, join base p⟩] ∧
    fetch_video_urls join base
        [⟨none, ⟨"video/mp4", some (src ++ "?" ++ qs)⟩ :: rest⟩] =
      [⟨join base src, VIDEO_THUMB⟩] := by
  have hs := strip_query_append src qs h
  constructor <;> simp [fetch_video_urls, List.find?_cons, hs]

/-- C8 (witness): the resolver theorem at a concrete album page and the
spec's own example source `a.mp4?x=1`, with string concatenation as the
join capability. -/
theorem fetch_video_urls_resolution_witness :
    fetch_video_urls (fun b r => b ++ r) "https://www.erome.com/a/x/"
        [⟨some "poster.jpg", [⟨"video/mp4", some ("a.mp4" ++ "?" ++ "x=1")⟩]⟩] =
      [⟨"https://www.erome.com/a/x/" ++ "a.mp4",
        "https://www.erome.com/a/x/" ++ "poster.jpg"⟩] ∧
    fetch_video_urls (fun b r => b ++ r) "https://www.erome.com/a/x/"
        [⟨none, [⟨"video/mp4", some ("a.mp4" ++ "?" ++ "x=1")⟩]⟩] =
      [⟨"https://www.erome.com/a/x/" ++ "a.mp4", VIDEO_THUMB⟩] :=
  fetch_video_urls_resolution (fun b r => b ++ r) "https://www.erome.com/a/x/"
    "poster.jpg" "a.mp4" "x=1" [] (by decide)

/- ========================================================================
   C9 — urls/titles pairing invariant
   ======================================================================== -/

/-- C9: the Bunkr album search returns every extracted link paired with a
(possibly empty-string) title — the pair list projects back to the full link
list and has its length — and the fullporner and notfans scrapers return
url and title lists of equal length, pairing index-wise. -/
theorem search_scrapers_pair_urls_titles :
    (∀ links titles : List String,
      (get_all_album_links_from_search links titles).map Prod.fst = links ∧
      (get_all_album_links_from_search links titles).length = links.length) ∧
    (∀ all_videos : List (String × String),
      (fullporner_unzip all_videos).1.length =
        (fullporner_unzip all_videos).2.length) ∧
    (∀ (term : String) (anchors : List NotfansAnchor),
      (notfans_extract term anchors).1.length =
        (notfans_extract term anchors).2.length) := by
  have hlen : ∀ links titles : List String,
      links.length ≤ (bunkr_pad_titles links titles).length := by
    intro links titles
    unfold bunkr_pad_titles
    split_ifs with h
    · simp
      omega
    · omega
  refine ⟨fun links titles => ⟨?_, ?_⟩, fun v => by simp [fullporner_unzip],
    fun term anchors => by simp [notfans_extract]⟩
  · exact List.map_fst_zip links _ (hlen links titles)
  · rw [get_all_album_links_from_search, List.length_zip]
    have := hlen links titles
    omega

/- ========================================================================
   C10 — register consumes the invite on a taken username
   ======================================================================== -/

/-- Marking an existing invite used makes its lookup read `true`. -/
theorem lookup_markUsed :
    ∀ (invites : List (String × Bool)) (code : String) (b : Bool),
      invites.lookup code = some b →
      (markUsed invites code).lookup code = some true := by
  intro invites code b
  induction invites with
  | nil =>
    intro h
    simp [List.lookup] at h
  | cons kv tl ih =>
    intro h
    obtain ⟨k, v⟩ := kv
    rw [markUsed, List.map_cons]
    by_cases hk : k = code
    · subst hk
      rw [if_pos (show ((k, v).fst == k) = true from beq_self_eq_true k)]
      rw [List.lookup]
      simp only [beq_self_eq_true]
    · have hbeq2 : (code == k) = false := by simpa using Ne.symm hk
      rw [List.lookup] at h
      simp only [hbeq2] at h
      rw [if_neg (show ¬((k, v).fst == code) = true by simpa using hk)]
      rw [List.lookup]
      simp only [hbeq2]
      exact ih h

/-- C10: calling register with a valid unused invite code and an
already-registered username yields HTTP 400 "Username already registered"
with the invite already marked used in the persisted state — the failed
registration consumes the invite code, and the user table is unchanged. -/
theorem register_consumes_invite_on_taken_username
    (hash : String → String) (st : AppState) (u p code : String)
    (hinv : st.invites.lookup code = some false)
    (huser : st.users.any (fun kv => kv.fst == u) = true) :
    register hash st u p code =
      (⟨markUsed st.invites code, st.users⟩,
       Except.error (400, "Username already registered")) ∧
    (markUsed st.invites code).lookup code = some true := by
  constructor
  · simp [register, hinv, huser]
  · exact lookup_markUsed st.invites code false hinv

/-- C10 (witness): a concrete one-invite, one-user state — registering the
existing username with the fresh invite code returns the 400 error while the
invite is left marked used. -/
theorem register_consumes_invite_witness :
    register (fun pw => pw) ⟨[("CODE7", false)], [("alice", "h0")]⟩ "alice"
        "pw" "CODE7" =
      (⟨markUsed [("CODE7", false)] "CODE7", [("alice", "h0")]⟩,
       Except.error (400, "Username already registered")) ∧
    (markUsed [("CODE7", false)] "CODE7").lookup "CODE7" = some true :=
  register_consumes_invite_on_taken_username (fun pw => pw)
    ⟨[("CODE7", false)], [("alice", "h0")]⟩ "alice" "pw" "CODE7"
    (by decide) (by decide)
